import Mathlib

/-!
# Verification of `rael_img::load_image` (src/src/lib.rs)

Shallow embedding of the single public function `load_image` of the
`rael_img` crate. The external collaborators (the `image` crate's decoder
and its two resampling entry points `resize` / `resize_exact` with the
Triangle filter) are out of scope per the design: they are modelled as
components of a `Collab` record passed to the pipeline, universally
quantified in the theorems and instantiated concretely in witnesses.

Machine integers: `u32` values are `Nat` with explicit `% 2^32` where the
source can overflow (the coordinate additions `x + position.0`,
`y + position.1`; Rust release-mode wrapping semantics). Pixel channels
(`u8`) are `Nat` carried through unchanged. The `f32` scale factor is
modelled as an exact rational; the Rust cast `as u32` (saturating,
truncating toward zero) is `ratToU32`.
-/

/-- One decoded pixel: the four RGBA channels exposed by the decoder. -/
structure Rgba where
  r : Nat
  g : Nat
  b : Nat
  a : Nat
deriving DecidableEq, Repr

/-- `rael::Color`: the simplified color emitted by `load_image`
(alpha channel absent). -/
structure Color where
  r : Nat
  g : Nat
  b : Nat
deriving DecidableEq, Repr

/-- A decoded image: dimensions plus random pixel access, as exposed by
`image::DynamicImage` through `GenericImageView`. -/
structure Image where
  width : Nat
  height : Nat
  pix : Nat → Nat → Rgba

/-- `image::ImageError`, abstracted: a single opaque decode-error kind. -/
structure DecodeError where
  msg : String
deriving DecidableEq, Repr

/-- Enumeration of all pixels of an image in the order produced by
`GenericImageView::pixels`: row-major, `y` outer, `x` inner, yielding
`(x, y, pixel)` triples. -/
def Image.pixels (img : Image) : List (Nat × Nat × Rgba) :=
  (List.range img.height).flatMap fun y =>
    (List.range img.width).map fun x => (x, y, img.pix x y)

/-- The external collaborators of the pipeline: `image::open` (decoder),
`DynamicImage::resize_exact` and `DynamicImage::resize`, the latter two
already specialised to `FilterType::Triangle` as in the source. -/
structure Collab where
  decode : String → Except DecodeError Image
  resizeExact : Image → Nat → Nat → Image
  resizeFit : Image → Nat → Nat → Image

/-- The `u32` range bound. -/
def U32LIM : Nat := 2 ^ 32

/-- Wrapping `u32` addition: `a + b` on `u32` in Rust release mode. -/
def u32add (a b : Nat) : Nat := (a + b) % U32LIM

/-- The Rust cast `f as u32` for a finite float value `q`: negative
values saturate to `0`, values beyond `u32::MAX` saturate to
`u32::MAX`, in-range values truncate toward zero (= floor for
nonnegative values). -/
def ratToU32 (q : ℚ) : Nat :=
  if q ≤ 0 then 0 else min (Int.toNat ⌊q⌋) (U32LIM - 1)

/-- Lines 71-72 of `lib.rs`:
`width.unwrap_or((img_width as f32 * scale) as u32)` and the analogous
height, packaged as the resolved `(target_width, target_height)`. -/
def targetDims (imgWidth imgHeight : Nat) (width height : Option Nat)
    (scale : ℚ) : Nat × Nat :=
  (width.getD (ratToU32 (imgWidth * scale)),
   height.getD (ratToU32 (imgHeight * scale)))

/-- Lines 74-90 of `lib.rs`: the selection of `final_img` between the
fast path (identity), `resize_exact` (stretch) and `resize` (fit). -/
def finalImage (C : Collab) (img : Image) (width height : Option Nat)
    (stretch : Bool) (scale : ℚ) : Image :=
  let t := targetDims img.width img.height width height scale
  if t.1 == img.width && t.2 == img.height then
    img
  else if stretch && width.isSome && height.isSome then
    C.resizeExact img t.1 t.2
  else
    C.resizeFit img t.1 t.2

/-- Lines 92-100 of `lib.rs`: walk `final_img.pixels()` and emit
`(x + position.0, y + position.1, Color { r, g, b })` for each pixel. -/
def flatten (img : Image) (position : Nat × Nat) :
    List (Nat × Nat × Color) :=
  img.pixels.map fun p =>
    (u32add p.1 position.1, u32add p.2.1 position.2,
     ⟨p.2.2.r, p.2.2.g, p.2.2.b⟩)

/-- `load_image` (lines 60-103 of `lib.rs`): decode, resolve the target
size, pick the resampling mode, flatten with the position offset. -/
def load_image (C : Collab) (path : String) (width height : Option Nat)
    (position : Nat × Nat) (stretch : Bool) (scale : ℚ) :
    Except DecodeError (List (Nat × Nat × Color)) := do
  let img ← C.decode path
  pure (flatten (finalImage C img width height stretch scale) position)

/-! ## Helper lemmas and concrete fixtures -/

/-- The pixel enumeration has one entry per pixel:
`width * height` in total. -/
theorem Image.pixels_length (img : Image) :
    img.pixels.length = img.width * img.height := by
  simp [Image.pixels, List.length_flatMap, Function.comp_def,
    List.map_const', List.sum_replicate, smul_eq_mul, Nat.mul_comm]

/-- Membership in the pixel enumeration: exactly the in-range coordinates
paired with their pixel. -/
theorem Image.mem_pixels (img : Image) (p : Nat × Nat × Rgba) :
    p ∈ img.pixels ↔
      p.1 < img.width ∧ p.2.1 < img.height ∧ p.2.2 = img.pix p.1 p.2.1 := by
  obtain ⟨x, y, c⟩ := p
  simp only [Image.pixels, List.mem_flatMap, List.mem_map, List.mem_range]
  constructor
  · rintro ⟨y', hy', x', hx', heq⟩
    have h1 : x' = x := congrArg Prod.fst heq
    have h2 : y' = y := congrArg (fun t => t.2.1) heq
    have h3 : img.pix x' y' = c := congrArg (fun t => t.2.2) heq
    subst h1; subst h2
    exact ⟨hx', hy', h3.symm⟩
  · rintro ⟨hx, hy, rfl⟩
    exact ⟨y, hy, x, hx, rfl⟩

/-- `load_image` is decode followed by flatten of the selected image. -/
theorem load_image_eq (C : Collab) (path : String) (width height : Option Nat)
    (position : Nat × Nat) (stretch : Bool) (scale : ℚ) :
    load_image C path width height position stretch scale =
      (C.decode path).map
        (fun img => flatten (finalImage C img width height stretch scale)
          position) := by
  unfold load_image
  cases C.decode path <;> rfl

/-- A successful `load_image` is a successful decode followed by
flattening the selected final image. -/
theorem load_image_ok (C : Collab) (path : String) (width height : Option Nat)
    (position : Nat × Nat) (stretch : Bool) (scale : ℚ)
    (pts : List (Nat × Nat × Color))
    (h : load_image C path width height position stretch scale = .ok pts) :
    ∃ img, C.decode path = .ok img ∧
      pts = flatten (finalImage C img width height stretch scale) position := by
  rw [load_image_eq] at h
  cases hdec : C.decode path with
  | error e => rw [hdec] at h; simp [Except.map] at h
  | ok img =>
      rw [hdec] at h
      refine ⟨img, rfl, ?_⟩
      have h' : flatten (finalImage C img width height stretch scale) position
          = pts := by simpa [Except.map] using h
      exact h'.symm

/-- A concrete 2x2 test image used by witnesses. -/
def testImg : Image :=
  ⟨2, 2, fun x y => ⟨10 + x, 20 + y, 30, if x = 0 ∧ y = 0 then 0 else 255⟩⟩

/-- A nearest-neighbour resampler instantiating the black-box resize
collaborators in witnesses; it returns exactly the requested dimensions. -/
def nearest (img : Image) (w h : Nat) : Image :=
  ⟨w, h, fun x y => img.pix (x * img.width / w) (y * img.height / h)⟩

/-- Concrete collaborators: a decoder succeeding only on `"ok.png"`
(returning `testImg`), with nearest-neighbour resamplers. -/
def testCollab : Collab :=
  ⟨fun p => if p = "ok.png" then .ok testImg else .error ⟨"decode"⟩,
   nearest, nearest⟩

/-! ## Claims -/

/-- **C1.** Once the fast path does not apply, `load_image` selects
stretch mode (`resize_exact`, an exact resize to the target dimensions)
iff `stretch == true` and both `width` and `height` were supplied, and
fit mode (`resize`, aspect-preserving within the target bounds) in every
other case; under the library contract that `resize_exact` returns
exactly the requested dimensions, the stretch-mode grid is exactly
target-sized. -/
theorem C1_mode_selection (C : Collab) (img : Image)
    (width height : Option Nat) (stretch : Bool) (scale : ℚ)
    (hfast :
      ¬((targetDims img.width img.height width height scale).1 = img.width ∧
        (targetDims img.width img.height width height scale).2 = img.height))
    (hres : ∀ i a b, (C.resizeExact i a b).width = a ∧
        (C.resizeExact i a b).height = b) :
    (finalImage C img width height stretch scale =
      if stretch = true ∧ width.isSome = true ∧ height.isSome = true then
        C.resizeExact img
          (targetDims img.width img.height width height scale).1
          (targetDims img.width img.height width height scale).2
      else
        C.resizeFit img
          (targetDims img.width img.height width height scale).1
          (targetDims img.width img.height width height scale).2) ∧
    (stretch = true ∧ width.isSome = true ∧ height.isSome = true →
      (finalImage C img width height stretch scale).width =
        (targetDims img.width img.height width height scale).1 ∧
      (finalImage C img width height stretch scale).height =
        (targetDims img.width img.height width height scale).2) := by
  have hb : ¬(((targetDims img.width img.height width height scale).1 ==
      img.width &&
      (targetDims img.width img.height width height scale).2 ==
      img.height) = true) := by
    simpa [Bool.and_eq_true, beq_iff_eq] using hfast
  constructor
  · unfold finalImage
    rw [if_neg hb]
    by_cases hs : (stretch && width.isSome && height.isSome) = true
    · rw [if_pos hs, if_pos]
      simpa [Bool.and_eq_true, and_assoc] using hs
    · rw [if_neg hs, if_neg]
      intro hc
      exact hs (by simp [Bool.and_eq_true, hc.1, hc.2.1, hc.2.2])
  · rintro ⟨h1, h2, h3⟩
    unfold finalImage
    rw [if_neg hb, if_pos (by simp [h1, h2, h3])]
    exact hres img _ _

/-- Witness for C1: concrete 2x2 image, explicit 3x4 target, stretch on. -/
theorem C1_mode_selection_witness :
    (finalImage testCollab testImg (some 3) (some 4) true 1 =
      if (true : Bool) = true ∧ (some 3 : Option Nat).isSome = true ∧
          (some 4 : Option Nat).isSome = true then
        testCollab.resizeExact testImg
          (targetDims testImg.width testImg.height (some 3) (some 4) 1).1
          (targetDims testImg.width testImg.height (some 3) (some 4) 1).2
      else
        testCollab.resizeFit testImg
          (targetDims testImg.width testImg.height (some 3) (some 4) 1).1
          (targetDims testImg.width testImg.height (some 3) (some 4) 1).2) ∧
    ((true : Bool) = true ∧ (some 3 : Option Nat).isSome = true ∧
        (some 4 : Option Nat).isSome = true →
      (finalImage testCollab testImg (some 3) (some 4) true 1).width =
        (targetDims testImg.width testImg.height (some 3) (some 4) 1).1 ∧
      (finalImage testCollab testImg (some 3) (some 4) true 1).height =
        (targetDims testImg.width testImg.height (some 3) (some 4) 1).2) :=
  C1_mode_selection testCollab testImg (some 3) (some 4) true 1 (by decide)
    (fun _ _ _ => ⟨rfl, rfl⟩)

/-- The `as u32` cast is the floor for nonnegative in-range values. -/
theorem ratToU32_eq_floor (q : ℚ) (h0 : 0 ≤ q) (h1 : q < (U32LIM : ℚ)) :
    ratToU32 q = Int.toNat ⌊q⌋ := by
  unfold ratToU32
  by_cases hq : q ≤ 0
  · have hz : q = 0 := le_antisymm hq h0
    subst hz; simp
  · rw [if_neg hq]
    apply min_eq_left
    have hfloor : ⌊q⌋ < ((U32LIM : ℤ)) := by
      rw [Int.floor_lt]
      exact_mod_cast h1
    have hL : (U32LIM : ℤ) = 4294967296 := by norm_num [U32LIM]
    have hL' : U32LIM = 4294967296 := by norm_num [U32LIM]
    omega

/-- **C2.** When `width` (resp. `height`) is `None`, the resolved target
width (resp. height) is the native dimension times `scale`, converted to
an integer with a floor-toward-zero cast; in particular
`width=None, height=None, scale=1/2` on a 100x100 native image resolves
to 50x50. -/
theorem C2_scale_fallback (imgW imgH : Nat) (width height : Option Nat)
    (scale : ℚ) (hs : 0 ≤ scale)
    (hwb : (imgW : ℚ) * scale < (U32LIM : ℚ))
    (hhb : (imgH : ℚ) * scale < (U32LIM : ℚ)) :
    (width = none →
      (targetDims imgW imgH width height scale).1 =
        Int.toNat ⌊(imgW : ℚ) * scale⌋) ∧
    (height = none →
      (targetDims imgW imgH width height scale).2 =
        Int.toNat ⌊(imgH : ℚ) * scale⌋) ∧
    targetDims 100 100 none none (1 / 2) = (50, 50) := by
  refine ⟨?_, ?_, ?_⟩
  · rintro rfl
    exact ratToU32_eq_floor _ (by positivity) hwb
  · rintro rfl
    exact ratToU32_eq_floor _ (by positivity) hhb
  · have h50 : ((100 : Nat) : ℚ) * (1 / 2) = 50 := by norm_num
    simp only [targetDims, Option.getD_none]
    rw [show ((100 : Nat) : ℚ) = (100 : ℚ) by norm_num]
    norm_num [ratToU32, U32LIM]
    decide

/-- Witness for C2: the 100x100, scale=1/2 instance itself. -/
theorem C2_scale_fallback_witness :
    ((none : Option Nat) = none →
      (targetDims 100 100 none none (1 / 2)).1 =
        Int.toNat ⌊((100 : Nat) : ℚ) * (1 / 2)⌋) ∧
    ((none : Option Nat) = none →
      (targetDims 100 100 none none (1 / 2)).2 =
        Int.toNat ⌊((100 : Nat) : ℚ) * (1 / 2)⌋) ∧
    targetDims 100 100 none none (1 / 2) = (50, 50) :=
  C2_scale_fallback 100 100 none none (1 / 2) (by norm_num)
    (by norm_num [U32LIM]) (by norm_num [U32LIM])

/-- **C3.** With both `width` and `height` supplied, the resolved target
is exactly the supplied pair, and `scale` has no effect whatsoever on
the result of `load_image` (it is not reapplied to explicit
dimensions). -/
theorem C3_explicit_dims (C : Collab) (path : String) (a b : Nat)
    (position : Nat × Nat) (stretch : Bool) (s1 s2 : ℚ) :
    (∀ imgW imgH, targetDims imgW imgH (some a) (some b) s1 = (a, b)) ∧
    load_image C path (some a) (some b) position stretch s1 =
      load_image C path (some a) (some b) position stretch s2 :=
  ⟨fun _ _ => rfl, rfl⟩

/-- **C4.** Every successful load returns exactly one point per pixel of
the final resampled grid: the output list length equals the final grid's
width times its height. -/
theorem C4_count_invariant (C : Collab) (path : String)
    (width height : Option Nat) (position : Nat × Nat) (stretch : Bool)
    (scale : ℚ) (pts : List (Nat × Nat × Color))
    (h : load_image C path width height position stretch scale = .ok pts) :
    ∃ img, C.decode path = .ok img ∧
      pts.length = (finalImage C img width height stretch scale).width *
        (finalImage C img width height stretch scale).height := by
  obtain ⟨img, hdec, rfl⟩ :=
    load_image_ok C path width height position stretch scale pts h
  exact ⟨img, hdec, by simp [flatten, Image.pixels_length]⟩

/-- Witness for C4: a 2x2 load gives 4 points. -/
theorem C4_count_invariant_witness :
    ∃ img, testCollab.decode "ok.png" = .ok img ∧
      ([((0 : Nat), (0 : Nat), (⟨10, 20, 30⟩ : Color)),
        (1, 0, ⟨11, 20, 30⟩), (0, 1, ⟨10, 21, 30⟩),
        (1, 1, ⟨11, 21, 30⟩)]).length =
        (finalImage testCollab img (some 2) (some 2) false 1).width *
        (finalImage testCollab img (some 2) (some 2) false 1).height :=
  C4_count_invariant testCollab "ok.png" (some 2) (some 2) (0, 0) false 1
    _ rfl

/-- **C5.** When the resolved target equals the native dimensions, no
resampling happens: the final image is the decoded image itself, and the
output points carry exactly the native pixels' RGB values. -/
theorem C5_identity_resize (C : Collab) (path : String) (img : Image)
    (width height : Option Nat) (position : Nat × Nat) (stretch : Bool)
    (scale : ℚ)
    (hdec : C.decode path = .ok img)
    (hw : (targetDims img.width img.height width height scale).1 = img.width)
    (hh : (targetDims img.width img.height width height scale).2 =
      img.height) :
    finalImage C img width height stretch scale = img ∧
    load_image C path width height position stretch scale =
      .ok (img.pixels.map fun p =>
        (u32add p.1 position.1, u32add p.2.1 position.2,
         ⟨p.2.2.r, p.2.2.g, p.2.2.b⟩)) := by
  have hc : ((targetDims img.width img.height width height scale).1 ==
      img.width &&
      (targetDims img.width img.height width height scale).2 ==
      img.height) = true := by
    simp [hw, hh]
  have hfin : finalImage C img width height stretch scale = img := by
    unfold finalImage
    rw [if_pos hc]
  refine ⟨hfin, ?_⟩
  rw [load_image_eq, hdec]
  simp [Except.map, hfin, flatten]

/-- Witness for C5: identity-size load of the 2x2 test image. -/
theorem C5_identity_resize_witness :
    finalImage testCollab testImg (some 2) (some 2) false 1 = testImg ∧
    load_image testCollab "ok.png" (some 2) (some 2) (0, 0) false 1 =
      .ok (testImg.pixels.map fun p =>
        (u32add p.1 0, u32add p.2.1 0, ⟨p.2.2.r, p.2.2.g, p.2.2.b⟩)) :=
  C5_identity_resize testCollab "ok.png" testImg (some 2) (some 2) (0, 0)
    false 1 rfl rfl rfl

/-- Shifting the position offset by a delta shifts every flattened point
by exactly that delta, when the additions stay below the u32 limit. -/
theorem flatten_add_delta (img : Image) (a b dx dy : Nat)
    (hbx : img.width + a + dx ≤ U32LIM)
    (hby : img.height + b + dy ≤ U32LIM) :
    flatten img (a + dx, b + dy) =
      (flatten img (a, b)).map fun q => (q.1 + dx, q.2.1 + dy, q.2.2) := by
  unfold flatten
  rw [List.map_map]
  apply List.map_congr_left
  intro p hp
  obtain ⟨hx, hy, -⟩ := (Image.mem_pixels img p).mp hp
  simp only [Function.comp_def, u32add]
  rw [Nat.mod_eq_of_lt (by omega), Nat.mod_eq_of_lt (by omega),
    Nat.mod_eq_of_lt (by omega), Nat.mod_eq_of_lt (by omega)]
  simp [Nat.add_assoc]

/-- **C6.** Every emitted coordinate is the resampled grid coordinate
plus the position offset componentwise (u32 addition), and two calls
differing only in `position` produce point lists identical up to
shifting every coordinate by exactly the position delta, colors and
order unchanged (given the additions stay in u32 range). -/
theorem C6_offset_linearity (C : Collab) (path : String) (img : Image)
    (width height : Option Nat) (stretch : Bool) (scale : ℚ)
    (a b dx dy : Nat)
    (hdec : C.decode path = .ok img)
    (hbx : (finalImage C img width height stretch scale).width + a + dx ≤
      U32LIM)
    (hby : (finalImage C img width height stretch scale).height + b + dy ≤
      U32LIM) :
    (load_image C path width height (a, b) stretch scale =
      .ok ((finalImage C img width height stretch scale).pixels.map fun p =>
        (u32add p.1 a, u32add p.2.1 b, ⟨p.2.2.r, p.2.2.g, p.2.2.b⟩))) ∧
    ∃ pts1 pts2,
      load_image C path width height (a, b) stretch scale = .ok pts1 ∧
      load_image C path width height (a + dx, b + dy) stretch scale =
        .ok pts2 ∧
      pts2 = pts1.map fun q => (q.1 + dx, q.2.1 + dy, q.2.2) := by
  have h1 : load_image C path width height (a, b) stretch scale =
      .ok (flatten (finalImage C img width height stretch scale) (a, b)) := by
    rw [load_image_eq, hdec]; rfl
  have h2 : load_image C path width height (a + dx, b + dy) stretch scale =
      .ok (flatten (finalImage C img width height stretch scale)
        (a + dx, b + dy)) := by
    rw [load_image_eq, hdec]; rfl
  refine ⟨by rw [h1]; rfl, _, _, h1, h2, ?_⟩
  exact flatten_add_delta _ a b dx dy hbx hby

/-- Witness for C6: 2x2 identity-size load, positions (5,7) and (6,9). -/
theorem C6_offset_linearity_witness :
    (load_image testCollab "ok.png" (some 2) (some 2) (5, 7) false 1 =
      .ok ((finalImage testCollab testImg (some 2) (some 2) false
          1).pixels.map fun p =>
        (u32add p.1 5, u32add p.2.1 7, ⟨p.2.2.r, p.2.2.g, p.2.2.b⟩))) ∧
    ∃ pts1 pts2,
      load_image testCollab "ok.png" (some 2) (some 2) (5, 7) false 1 =
        .ok pts1 ∧
      load_image testCollab "ok.png" (some 2) (some 2) (5 + 1, 7 + 2) false
        1 = .ok pts2 ∧
      pts2 = pts1.map fun q => (q.1 + 1, q.2.1 + 2, q.2.2) :=
  C6_offset_linearity testCollab "ok.png" testImg (some 2) (some 2) false 1
    5 7 1 2 rfl (by decide) (by decide)

/-- The flattened output is the full row-major enumeration (`y` outer,
`x` inner) of the grid with offset coordinates and alpha-free colors. -/
theorem flatten_eq_enum (img : Image) (pos : Nat × Nat) :
    flatten img pos = (List.range img.height).flatMap fun y =>
      (List.range img.width).map fun x =>
        (u32add x pos.1, u32add y pos.2,
         (⟨(img.pix x y).r, (img.pix x y).g, (img.pix x y).b⟩ : Color)) := by
  unfold flatten Image.pixels
  rw [List.map_flatMap]
  simp [List.map_map, Function.comp_def]

/-- **C7.** The emitted color is the pixel's r, g, b with alpha
discarded: two images agreeing on RGB but differing arbitrarily in
alpha flatten to identical point lists, and a fully transparent
`(10,20,30,0)` pixel is emitted as `{10,20,30}`, identical to an opaque
pixel with the same RGB. -/
theorem C7_alpha_drop (img1 img2 : Image) (position : Nat × Nat)
    (hw : img2.width = img1.width) (hh : img2.height = img1.height)
    (hrgb : ∀ x y, (img2.pix x y).r = (img1.pix x y).r ∧
      (img2.pix x y).g = (img1.pix x y).g ∧
      (img2.pix x y).b = (img1.pix x y).b) :
    flatten img2 position = flatten img1 position ∧
    flatten ⟨1, 1, fun _ _ => ⟨10, 20, 30, 0⟩⟩ (0, 0) =
      [(0, 0, ⟨10, 20, 30⟩)] ∧
    flatten ⟨1, 1, fun _ _ => ⟨10, 20, 30, 0⟩⟩ (0, 0) =
      flatten ⟨1, 1, fun _ _ => ⟨10, 20, 30, 255⟩⟩ (0, 0) := by
  refine ⟨?_, by decide, by decide⟩
  rw [flatten_eq_enum, flatten_eq_enum, hw, hh]
  refine congrArg _ (funext fun y =>
    congrArg (fun g => List.map g (List.range img1.width))
      (funext fun x => ?_))
  obtain ⟨h1, h2, h3⟩ := hrgb x y
  rw [h1, h2, h3]

/-- Witness for C7: one transparent and one opaque 1x1 image. -/
theorem C7_alpha_drop_witness :
    flatten ⟨1, 1, fun _ _ => ⟨10, 20, 30, 0⟩⟩ (3, 4) =
      flatten ⟨1, 1, fun _ _ => ⟨10, 20, 30, 255⟩⟩ (3, 4) ∧
    flatten ⟨1, 1, fun _ _ => ⟨10, 20, 30, 0⟩⟩ (0, 0) =
      [(0, 0, ⟨10, 20, 30⟩)] ∧
    flatten ⟨1, 1, fun _ _ => ⟨10, 20, 30, 0⟩⟩ (0, 0) =
      flatten ⟨1, 1, fun _ _ => ⟨10, 20, 30, 255⟩⟩ (0, 0) :=
  C7_alpha_drop ⟨1, 1, fun _ _ => ⟨10, 20, 30, 255⟩⟩
    ⟨1, 1, fun _ _ => ⟨10, 20, 30, 0⟩⟩ (3, 4) rfl rfl
    (fun _ _ => ⟨rfl, rfl, rfl⟩)

/-- **C8.** `load_image` fails exactly when decoding fails, propagating
the decoder's error with no points: no partial list ever accompanies an
error, and every failure of `load_image` is a decode failure. -/
theorem C8_decode_failure (C : Collab) (path : String)
    (width height : Option Nat) (position : Nat × Nat) (stretch : Bool)
    (scale : ℚ) (e : DecodeError) :
    load_image C path width height position stretch scale = .error e ↔
      C.decode path = .error e := by
  rw [load_image_eq]
  cases C.decode path <;> simp [Except.map]

/-- **C9.** The flattener culls nothing and checks no destination
bounds: a successful load's output is exactly the full deterministic
row-major enumeration (`y` outer, `x` inner) of the final grid, every
pixel emitted once whatever coordinates the offset produces. -/
theorem C9_row_major_no_culling (C : Collab) (path : String)
    (width height : Option Nat) (position : Nat × Nat) (stretch : Bool)
    (scale : ℚ) (pts : List (Nat × Nat × Color))
    (h : load_image C path width height position stretch scale = .ok pts) :
    ∃ img, C.decode path = .ok img ∧
      pts = (List.range
          (finalImage C img width height stretch scale).height).flatMap
        fun y => (List.range
            (finalImage C img width height stretch scale).width).map
          fun x =>
            (u32add x position.1, u32add y position.2,
             (⟨((finalImage C img width height stretch scale).pix x y).r,
               ((finalImage C img width height stretch scale).pix x y).g,
               ((finalImage C img width height stretch scale).pix x y).b⟩ :
               Color)) := by
  obtain ⟨img, hdec, rfl⟩ :=
    load_image_ok C path width height position stretch scale pts h
  exact ⟨img, hdec, flatten_eq_enum _ _⟩

/-- Witness for C9: the enumeration of a 2x2 identity-size load. -/
theorem C9_row_major_no_culling_witness :
    ∃ img, testCollab.decode "ok.png" = .ok img ∧
      ([((5 : Nat), (7 : Nat), (⟨10, 20, 30⟩ : Color)),
        (6, 7, ⟨11, 20, 30⟩), (5, 8, ⟨10, 21, 30⟩),
        (6, 8, ⟨11, 21, 30⟩)]) =
        (List.range
           (finalImage testCollab img (some 2) (some 2) false 1).height).flatMap
          fun y => (List.range
              (finalImage testCollab img (some 2) (some 2) false 1).width).map
            fun x =>
              (u32add x 5, u32add y 7,
               (⟨((finalImage testCollab img (some 2) (some 2) false
                     1).pix x y).r,
                 ((finalImage testCollab img (some 2) (some 2) false
                     1).pix x y).g,
                 ((finalImage testCollab img (some 2) (some 2) false
                     1).pix x y).b⟩ : Color)) :=
  C9_row_major_no_culling testCollab "ok.png" (some 2) (some 2) (5, 7)
    false 1 _ rfl

/-- **C10.** Coordinates are unsigned 32-bit: every emitted coordinate
is below `2^32` (never negative), equals the grid coordinate plus the
offset modulo `2^32` (wrapping on overflow rather than going negative),
and whenever the addition stays in u32 range the emitted coordinate is
at least the corresponding offset component. -/
theorem C10_u32_coords (C : Collab) (path : String)
    (width height : Option Nat) (position : Nat × Nat) (stretch : Bool)
    (scale : ℚ) (pts : List (Nat × Nat × Color))
    (h : load_image C path width height position stretch scale = .ok pts) :
    ∀ p ∈ pts, p.1 < U32LIM ∧ p.2.1 < U32LIM ∧
      ∃ img x y, C.decode path = .ok img ∧
        x < (finalImage C img width height stretch scale).width ∧
        y < (finalImage C img width height stretch scale).height ∧
        p.1 = (x + position.1) % U32LIM ∧
        p.2.1 = (y + position.2) % U32LIM ∧
        (x + position.1 < U32LIM → position.1 ≤ p.1) ∧
        (y + position.2 < U32LIM → position.2 ≤ p.2.1) := by
  obtain ⟨img, hdec, rfl⟩ :=
    load_image_ok C path width height position stretch scale pts h
  intro p hp
  obtain ⟨q, hq, rfl⟩ := List.mem_map.mp hp
  obtain ⟨hx, hy, -⟩ :=
    (Image.mem_pixels (finalImage C img width height stretch scale) q).mp hq
  have hU : 0 < U32LIM := by norm_num [U32LIM]
  refine ⟨Nat.mod_lt _ hU, Nat.mod_lt _ hU,
    img, q.1, q.2.1, hdec, hx, hy, rfl, rfl, ?_, ?_⟩
  · intro hlt
    show position.1 ≤ (q.1 + position.1) % U32LIM
    rw [Nat.mod_eq_of_lt hlt]
    exact Nat.le_add_left _ _
  · intro hlt
    show position.2 ≤ (q.2.1 + position.2) % U32LIM
    rw [Nat.mod_eq_of_lt hlt]
    exact Nat.le_add_left _ _

/-- Witness for C10: the point (6,7) of a concrete 2x2 load at
offset (5,7). -/
theorem C10_u32_coords_witness :
    (6 : Nat) < U32LIM ∧ (7 : Nat) < U32LIM ∧
    ∃ img x y, testCollab.decode "ok.png" = .ok img ∧
      x < (finalImage testCollab img (some 2) (some 2) false 1).width ∧
      y < (finalImage testCollab img (some 2) (some 2) false 1).height ∧
      (6 : Nat) = (x + 5) % U32LIM ∧
      (7 : Nat) = (y + 7) % U32LIM ∧
      (x + 5 < U32LIM → 5 ≤ (6 : Nat)) ∧
      (y + 7 < U32LIM → 7 ≤ (7 : Nat)) :=
  C10_u32_coords testCollab "ok.png" (some 2) (some 2) (5, 7) false 1
    _ rfl (6, 7, ⟨11, 20, 30⟩) (by decide)
